import Mathlib

/-!
Verification of the CoverCraft cover-letter generator (constants.py, utils.py,
helpers.py, app.py) against its natural-language specification.

Python strings are modelled as Lean `String` (lists of characters); Python
`int` token counts as `Nat` (they are list lengths, hence non-negative) or
`Int` where signedness of the result matters; fallible operations return
`Option`.  External collaborators (the tiktoken tokenizer, the OpenAI client,
the Streamlit caches' clock) are passed in as explicit function parameters or
modelled as explicit state, exactly at the call boundary the Python code uses.
-/

namespace CoverCraft

/-! Basic Python string primitives. -/

/-- Python `str.lower()` restricted to per-character lowering (the repository
only classifies ASCII labels). -/
def strLower (s : String) : String :=
  String.mk (s.data.map Char.toLower)

/-- Python `needle in hay` substring test on character lists. -/
def isSubstr (needle : List Char) : List Char → Bool
  | [] => needle.isEmpty
  | h :: t => needle.isPrefixOf (h :: t) || isSubstr needle t

/-- Python whitespace as used by `str.strip()` (ASCII subset). -/
def pyIsSpace (c : Char) : Bool :=
  c = ' ' || c = '\t' || c = '\n' || c = '\r' || c = Char.ofNat 11 || c = Char.ofNat 12

/-- Python `str.strip()`. -/
def pyStrip (s : String) : String :=
  String.mk (((s.data.dropWhile pyIsSpace).reverse.dropWhile pyIsSpace).reverse)

/-- Python `str.split(sep)` for a one-character separator: no collapsing of
adjacent separators, and the empty string splits to `[""]`. -/
def pySplit (sep : Char) : List Char → List (List Char)
  | [] => [[]]
  | c :: rest =>
    let r := pySplit sep rest
    if c = sep then [] :: r
    else
      match r with
      | [] => [[c]]
      | s :: ss => (c :: s) :: ss

/-- Association-list lookup, modelling Python dict access keyed by structural
equality. -/
def lookup {α β : Type} [DecidableEq α] : List (α × β) → α → Option β
  | [], _ => none
  | (k, v) :: t, key => if key = k then some v else lookup t key

/-! Constants from constants.py. -/

def RESUME_MAX_TOKENS : Nat := 8000

def JOB_DESC_MAX_TOKENS : Nat := 3000

def TOTAL_SAFE_LIMIT : Nat := 16000

def SUPPORTED_FILE_TYPES : List String := ["pdf"]

/-- The table `INPUT_TYPE_KEYWORDS` from constants.py, as an ordered association list
(Python dicts iterate in insertion order). -/
def INPUT_TYPE_KEYWORDS : List (String × List String) :=
  [("email", ["email", "mail"]),
   ("phone", ["phone", "mobile", "tel"]),
   ("address", ["address", "street"]),
   ("date", ["date"]),
   ("name", ["name"])]

/-! Classification of placeholder labels (utils.py, determine_input_type). -/

/-- The `for input_type, keywords in INPUT_TYPE_KEYWORDS.items()` loop body
of `determine_input_type`: return the first group one of whose keywords is a
substring of the lowered label. -/
def firstMatching (pl : String) : List (String × List String) → Option String
  | [] => none
  | g :: rest =>
    if g.2.any (fun kw => isSubstr kw.data pl.data) then some g.1
    else firstMatching pl rest

/-- Model of `determine_input_type` from utils.py: lower-case the label, walk the
keyword table in order, return the first matching group; fall through to the
literal string `"text"`. -/
def determine_input_type (placeholder : String) : String :=
  let pl := strLower placeholder
  (firstMatching pl INPUT_TYPE_KEYWORDS).getD "text"

/-- The semantic categories named by the specification (§3, §4.3).  The spec
calls the fall-through category `generic`. -/
inductive SpecCategory : Type
  | email
  | phone
  | address
  | date
  | name
  | generic
deriving DecidableEq

/-- Modelled from the spec §4.3's words: `classify(label)` lower-cases the
label and tests substring membership against the ordered keyword groups,
first match wins, falling through to `generic`. -/
def specClassify (label : String) : SpecCategory :=
  let l := strLower label
  if isSubstr "email".data l.data || isSubstr "mail".data l.data then .email
  else if isSubstr "phone".data l.data
      || (isSubstr "mobile".data l.data || isSubstr "tel".data l.data) then .phone
  else if isSubstr "address".data l.data || isSubstr "street".data l.data then .address
  else if isSubstr "date".data l.data then .date
  else if isSubstr "name".data l.data then .name
  else .generic

/-- The string the code uses to represent each spec category: the code's
representation of the spec's `generic` is the literal `"text"`
(`determine_input_type` returns `'text'`, and `PLACEHOLDER_DEFAULTS` resolves
that value through its `'generic'` fallback entry). -/
def categoryToCode : SpecCategory → String
  | .email => "email"
  | .phone => "phone"
  | .address => "address"
  | .date => "date"
  | .name => "name"
  | .generic => "text"

/-! Filename sanitization (utils.py, sanitize_filename). -/

/-- The unsafe characters `'<>:"/\\|?*'` from `sanitize_filename`. -/
def UNSAFE_CHARS : List Char :=
  ['<', '>', ':', '"', '/', '\\', '|', '?', '*']

/-- Python `str.replace(old, new)` for one-character arguments: a per-character
map. -/
def replaceChar (old new : Char) (l : List Char) : List Char :=
  l.map (fun c => if c = old then new else c)

/-- Model of `sanitize_filename` from utils.py: successively replace each unsafe
character with an underscore. -/
def sanitize_filename (filename : String) : String :=
  String.mk (UNSAFE_CHARS.foldl (fun l c => replaceChar c '_' l) filename.data)

/-! File-type validation (utils.py, validate_file_type). -/

/-- Model of `validate_file_type` from utils.py: empty filenames are falsy and
rejected; otherwise the segment after the last `'.'` (the whole name when no
dot occurs, as Python `split` returns the whole string), lower-cased, must be
a supported extension. -/
def validate_file_type (filename : String) : Bool :=
  if filename = "" then false
  else
    SUPPORTED_FILE_TYPES.contains
      (String.mk (((pySplit '.' filename.data).getLastD []).map Char.toLower))

/-- Specification-side reading of "the segment after the last dot": the
longest dot-free suffix of the name. -/
def afterLastSep (sep : Char) (l : List Char) : List Char :=
  (l.reverse.takeWhile (fun c => c != sep)).reverse

/-! Placeholder substitution from utils.py and app.py (re.sub on escaped labels).

`replace_placeholders` (utils.py) and `replace_placeholders_with_regex`
(app.py) are the same code: for each `(placeholder, value)` dict entry in
order, `text = re.sub('\\[' + re.escape(placeholder) + '\\]', value, text)`.
Because the label is `re.escape`d, the pattern matches exactly the literal
string `[label]`, so `re.sub` here is leftmost non-overlapping literal
replacement that never re-reads its own insertions within one call.  The
replacement string, however, is an `re.sub` *template*: backslash escapes in
the value are interpreted (and bad escapes or group references raise, since
the pattern has no groups), which the model reflects with `Option`. -/

/-- Leftmost, non-overlapping replacement of the literal `pat` by `rep`,
never re-scanning `rep`'s own insertions; fuel-indexed so that the recursion
is structural (one fuel unit and at least one text character per step, so
`fuel = text.length` always suffices). -/
def replaceAllF (pat rep : List Char) : Nat → List Char → List Char
  | _, [] => []
  | 0, text => text
  | fuel + 1, c :: rest =>
    if pat.isPrefixOf (c :: rest) && !pat.isEmpty then
      rep ++ replaceAllF pat rep fuel ((c :: rest).drop pat.length)
    else
      c :: replaceAllF pat rep fuel rest

/-- Model of `re.sub` of the literal pattern `pat` by (already template-expanded)
`rep` over `text`. -/
def replaceAll (pat rep text : List Char) : List Char :=
  replaceAllF pat rep text.length text

def isOctDigit (c : Char) : Bool :=
  '0' ≤ c && c ≤ '7'

def octVal (c : Char) : Nat :=
  c.toNat - '0'.toNat

/-- Model of the `re.sub` replacement-template expansion (CPython `parse_template`) for a
pattern with no capture groups whose whole match is the constant string
`matched`: `\\`, `\a`, `\b`, `\f`, `\n`, `\r`, `\t`, `\v` are control
escapes, `\g<0>` (canonical spelling) inserts the whole match, `\0` with up
to two further octal digits is an octal escape, `\1`…`\99` are invalid group
references (the pattern has no groups) and raise, a backslash before any
other ASCII letter raises a bad-escape error, a backslash before a non-letter
is kept verbatim, and a trailing backslash raises.  `none` models the raised
`re.error`. -/
def pyExpandTemplate (matched : List Char) : List Char → Option (List Char)
  | [] => some []
  | c :: rest =>
    if c = '\\' then
      match rest with
      | [] => none
      | 'g' :: '<' :: '0' :: '>' :: r => (pyExpandTemplate matched r).map (fun l => matched ++ l)
      | 'g' :: _ => none
      | '0' :: d1 :: d2 :: r =>
        if isOctDigit d1 && isOctDigit d2 then
          (pyExpandTemplate matched r).map (fun l => Char.ofNat (octVal d1 * 8 + octVal d2) :: l)
        else if isOctDigit d1 then
          (pyExpandTemplate matched (d2 :: r)).map (fun l => Char.ofNat (octVal d1) :: l)
        else
          (pyExpandTemplate matched (d1 :: d2 :: r)).map (fun l => Char.ofNat 0 :: l)
      | '0' :: [d1] =>
        if isOctDigit d1 then some [Char.ofNat (octVal d1)]
        else (pyExpandTemplate matched [d1]).map (fun l => Char.ofNat 0 :: l)
      | ['0'] => some [Char.ofNat 0]
      | e :: r =>
        if e = '\\' then (pyExpandTemplate matched r).map (fun l => '\\' :: l)
        else if e = 'a' then (pyExpandTemplate matched r).map (fun l => Char.ofNat 7 :: l)
        else if e = 'b' then (pyExpandTemplate matched r).map (fun l => Char.ofNat 8 :: l)
        else if e = 'f' then (pyExpandTemplate matched r).map (fun l => Char.ofNat 12 :: l)
        else if e = 'n' then (pyExpandTemplate matched r).map (fun l => '\n' :: l)
        else if e = 'r' then (pyExpandTemplate matched r).map (fun l => Char.ofNat 13 :: l)
        else if e = 't' then (pyExpandTemplate matched r).map (fun l => '\t' :: l)
        else if e = 'v' then (pyExpandTemplate matched r).map (fun l => Char.ofNat 11 :: l)
        else if e.isDigit then none
        else if e.isAlpha then none
        else (pyExpandTemplate matched r).map (fun l => '\\' :: e :: l)
    else
      (pyExpandTemplate matched rest).map (fun l => c :: l)

/-- The literal pattern `re.sub` is given for a placeholder label:
`'[' + label + ']'` (the label itself is `re.escape`d in the source, which
makes the regex match exactly this literal). -/
def bracketed (label : String) : List Char :=
  '[' :: label.data ++ [']']

/-- Model of `replace_placeholders` from utils.py (= `replace_placeholders_with_regex`
from app.py): fold the entries of the map in dict order, each performing one
`re.sub` pass over the current text; a template error in any value raises,
modelled by `none`. -/
def replace_placeholders (text : String) (placeholder_values : List (String × String)) :
    Option String :=
  (placeholder_values.foldlM
    (fun t pv =>
      (pyExpandTemplate (bracketed pv.1) pv.2.data).map
        (fun rep => replaceAll (bracketed pv.1) rep t))
    text.data).map String.mk

/-! Content hashing (utils.py, calculate_content_hash).

`calculate_content_hash` builds `f"{resume_text}|{job_description}"`, UTF-8
encodes it, and returns the lowercase hex MD5 digest.  MD5 (RFC 1321) is
implemented below over byte lists, with 32-bit words as `Nat` reduced
modulo `2^32`. -/

def mask32 : Nat := 4294967296

def add32 (a b : Nat) : Nat := (a + b) % mask32

def not32 (a : Nat) : Nat := Nat.xor a (mask32 - 1)

def rotl32 (x s : Nat) : Nat := (x * 2 ^ s) % mask32 + x / 2 ^ (32 - s)

/-- The 64 MD5 sine-derived constants. -/
def md5K : List Nat :=
  [0xd76aa478, 0xe8c7b756, 0x242070db, 0xc1bdceee,
   0xf57c0faf, 0x4787c62a, 0xa8304613, 0xfd469501,
   0x698098d8, 0x8b44f7af, 0xffff5bb1, 0x895cd7be,
   0x6b901122, 0xfd987193, 0xa679438e, 0x49b40821,
   0xf61e2562, 0xc040b340, 0x265e5a51, 0xe9b6c7aa,
   0xd62f105d, 0x02441453, 0xd8a1e681, 0xe7d3fbc8,
   0x21e1cde6, 0xc33707d6, 0xf4d50d87, 0x455a14ed,
   0xa9e3e905, 0xfcefa3f8, 0x676f02d9, 0x8d2a4c8a,
   0xfffa3942, 0x8771f681, 0x6d9d6122, 0xfde5380c,
   0xa4beea44, 0x4bdecfa9, 0xf6bb4b60, 0xbebfbc70,
   0x289b7ec6, 0xeaa127fa, 0xd4ef3085, 0x04881d05,
   0xd9d4d039, 0xe6db99e5, 0x1fa27cf8, 0xc4ac5665,
   0xf4292244, 0x432aff97, 0xab9423a7, 0xfc93a039,
   0x655b59c3, 0x8f0ccc92, 0xffeff47d, 0x85845dd1,
   0x6fa87e4f, 0xfe2ce6e0, 0xa3014314, 0x4e0811a1,
   0xf7537e82, 0xbd3af235, 0x2ad7d2bb, 0xeb86d391]

/-- The 64 MD5 per-round left-rotation amounts. -/
def md5S : List Nat :=
  [7, 12, 17, 22, 7, 12, 17, 22, 7, 12, 17, 22, 7, 12, 17, 22,
   5, 9, 14, 20, 5, 9, 14, 20, 5, 9, 14, 20, 5, 9, 14, 20,
   4, 11, 16, 23, 4, 11, 16, 23, 4, 11, 16, 23, 4, 11, 16, 23,
   6, 10, 15, 21, 6, 10, 15, 21, 6, 10, 15, 21, 6, 10, 15, 21]

def md5F (i b c d : Nat) : Nat :=
  if i < 16 then Nat.lor (Nat.land b c) (Nat.land (not32 b) d)
  else if i < 32 then Nat.lor (Nat.land d b) (Nat.land (not32 d) c)
  else if i < 48 then Nat.xor b (Nat.xor c d)
  else Nat.xor c (Nat.lor b (not32 d))

def md5G (i : Nat) : Nat :=
  if i < 16 then i
  else if i < 32 then (5 * i + 1) % 16
  else if i < 48 then (3 * i + 5) % 16
  else (7 * i) % 16

/-- Little-endian packing of bytes into 32-bit words. -/
def bytesToWords : List Nat → List Nat
  | b0 :: b1 :: b2 :: b3 :: rest =>
    (b0 + b1 * 256 + b2 * 65536 + b3 * 16777216) :: bytesToWords rest
  | _ => []

def md5Step (M : List Nat) (st : Nat × Nat × Nat × Nat) (i : Nat) : Nat × Nat × Nat × Nat :=
  let f := add32 (add32 (add32 (md5F i st.2.1 st.2.2.1 st.2.2.2) st.1) (md5K.getD i 0))
    (M.getD (md5G i) 0)
  (st.2.2.2, add32 st.2.1 (rotl32 f (md5S.getD i 0)), st.2.1, st.2.2.1)

def md5ProcessChunk (st : Nat × Nat × Nat × Nat) (chunk : List Nat) : Nat × Nat × Nat × Nat :=
  let M := bytesToWords chunk
  let r := (List.range 64).foldl (md5Step M) st
  (add32 st.1 r.1, add32 st.2.1 r.2.1, add32 st.2.2.1 r.2.2.1, add32 st.2.2.2 r.2.2.2)

/-- Split into 64-byte chunks (fuel-indexed structural recursion). -/
def chunks64 : Nat → List Nat → List (List Nat)
  | 0, _ => []
  | _, [] => []
  | fuel + 1, l => l.take 64 :: chunks64 fuel (l.drop 64)

def leBytes4 (n : Nat) : List Nat :=
  [n % 256, n / 256 % 256, n / 65536 % 256, n / 16777216 % 256]

def leBytes8 (n : Nat) : List Nat :=
  leBytes4 n ++ leBytes4 (n / mask32)

/-- MD5 padding: a `0x80` byte, zeros to 56 mod 64, then the 64-bit
little-endian bit length. -/
def md5Pad (msg : List Nat) : List Nat :=
  msg ++ [128] ++ List.replicate ((119 - msg.length % 64) % 64) 0 ++ leBytes8 (msg.length * 8)

def md5Bytes (msg : List Nat) : List Nat :=
  let padded := md5Pad msg
  let st := (chunks64 (padded.length + 1) padded).foldl md5ProcessChunk
    (0x67452301, 0xefcdab89, 0x98badcfe, 0x10325476)
  leBytes4 st.1 ++ leBytes4 st.2.1 ++ leBytes4 st.2.2.1 ++ leBytes4 st.2.2.2

def hexDigit (n : Nat) : Char :=
  if n < 10 then Char.ofNat (48 + n) else Char.ofNat (87 + n)

/-- Python `.hexdigest()`: lowercase hex rendering of the digest bytes. -/
def bytesToHex (bs : List Nat) : String :=
  String.mk (bs.foldr (fun b acc => hexDigit (b / 16) :: hexDigit (b % 16) :: acc) [])

/-- UTF-8 encoding of one code point (Python `str.encode()`). -/
def utf8Bytes (n : Nat) : List Nat :=
  if n < 128 then [n]
  else if n < 2048 then [192 + n / 64, 128 + n % 64]
  else if n < 65536 then [224 + n / 4096, 128 + n / 64 % 64, 128 + n % 64]
  else [240 + n / 262144, 128 + n / 4096 % 64, 128 + n / 64 % 64, 128 + n % 64]

def utf8Encode (s : String) : List Nat :=
  s.data.foldr (fun c acc => utf8Bytes c.toNat ++ acc) []

/-- The pre-hash content `f"{resume_text}|{job_description}"`. -/
def hashContent (resume_text job_description : String) : String :=
  resume_text ++ "|" ++ job_description

/-- Model of `calculate_content_hash` from utils.py. -/
def calculate_content_hash (resume_text job_description : String) : String :=
  bytesToHex (md5Bytes (utf8Encode (hashContent resume_text job_description)))

/-! Token counting (utils.py, count_tokens). -/

/-- Model of `count_tokens` from utils.py.  The `try` block (loading the tiktoken
encoding and encoding the text) is the external tokenizer, modelled as an
oracle `tokenize` returning `none` exactly when the block raises; the
`except` path returns `0`.  The result is `Int` so that the claimed
non-negativity is about the value, not about the type. -/
def count_tokens (tokenize : String → Option (List Nat)) (text : String) : Int :=
  match tokenize text with
  | none => 0
  | some toks => (toks.length : Int)

/-! Token-budget validation (helpers.py, validate_token_limits). -/

/-- Model of `validate_token_limits` from helpers.py, with the tokenizer count
function passed in (`count_tokens` in the source; token counts are
non-negative ints, hence `Nat`). -/
def validate_token_limits (tok : String → Nat) (resume_text job_description : String) :
    Bool × String :=
  let resume_tokens := tok resume_text
  let job_desc_tokens := tok job_description
  let total_tokens := resume_tokens + job_desc_tokens
  if resume_tokens > RESUME_MAX_TOKENS then
    (false, "resume (" ++ toString resume_tokens ++ " tokens)")
  else if job_desc_tokens > JOB_DESC_MAX_TOKENS then
    (false, "job description (" ++ toString job_desc_tokens ++ " tokens)")
  else if total_tokens > TOTAL_SAFE_LIMIT then
    (false, "total content (" ++ toString total_tokens ++ " tokens)")
  else
    (true, "")

/-! Token truncation (app.py, truncate_text_to_tokens). -/

/-- Model of `truncate_text_to_tokens` from app.py, with the external tokenizer's
`encode`/`decode` passed in. -/
def truncate_text_to_tokens (encode : String → List Nat) (decode : List Nat → String)
    (text : String) (max_tokens : Nat) : String × Nat :=
  let tokens := encode text
  if tokens.length ≤ max_tokens then
    (text, tokens.length)
  else
    (decode (tokens.take max_tokens), max_tokens)

/-! The two cache layers around generation (helpers.py).

`generate_cover_letter_with_cache` is decorated `@st.cache_data(ttl=3600)`:
Streamlit memoizes the *return value* — whatever it is, including the `None`
returned on every failure path — keyed by the argument tuple
`(resume_text, job_description, content_hash)`.  The function body never lets
an exception escape (every failure is caught and turned into `None`), so an
entry is recorded on every miss.  `get_cached_cover_letter` adds a second,
session-state cache keyed by `"cover_letter_" + content_hash`, which stores
only truthy (non-empty) letters.

The model makes both caches and the number of completed external API
invocations explicit state.  The external collaborators are parameters:
`apiKeyPresent` models `os.getenv("OPENAI_API_KEY")` being set, `tok` the
tokenizer count used by `validate_token_limits`, and `gen n` the outcome of
the `n`-th OpenAI chat-completion call (`none` = the call raised, caught by
the `except` arms; `some raw` = it returned content `raw`, which the code
then strips and rejects if empty).  Expiry of the 1-hour TTL is outside the
model (no clock). -/

structure AppState : Type where
  sessionCache : List (String × String)
  dataCache : List ((String × String × String) × Option String)
  apiCalls : Nat
deriving DecidableEq

/-- Model of `generate_cover_letter_with_cache` from helpers.py under its
`@st.cache_data` decorator. -/
def generate_cover_letter_with_cache (apiKeyPresent : Bool) (tok : String → Nat)
    (gen : Nat → Option String) (resume_text job_description content_hash : String)
    (s : AppState) : Option String × AppState :=
  match lookup s.dataCache (resume_text, job_description, content_hash) with
  | some v => (v, s)
  | none =>
    let run : Option String × Nat :=
      if !apiKeyPresent then (none, 0)
      else if !(validate_token_limits tok resume_text job_description).1 then (none, 0)
      else
        match gen s.apiCalls with
        | none => (none, 1)
        | some raw =>
          let cover_letter := pyStrip raw
          (if cover_letter = "" then none else some cover_letter, 1)
    (run.1,
     { s with
        dataCache := ((resume_text, job_description, content_hash), run.1) :: s.dataCache,
        apiCalls := s.apiCalls + run.2 })

/-- Model of `get_cached_cover_letter` from helpers.py: consult the session-state
cache (a `None` or empty entry is falsy and ignored), otherwise call the
`st.cache_data`-wrapped generator, storing only a truthy result. -/
def get_cached_cover_letter (apiKeyPresent : Bool) (tok : String → Nat)
    (gen : Nat → Option String) (resume_text job_description : String)
    (s : AppState) : Option String × AppState :=
  let content_hash := calculate_content_hash resume_text job_description
  let cache_key := "cover_letter_" ++ content_hash
  let cached := lookup s.sessionCache cache_key
  if cached.getD "" ≠ "" then (cached, s)
  else
    let rs := generate_cover_letter_with_cache apiKeyPresent tok gen
      resume_text job_description content_hash s
    match rs.1 with
    | some cover_letter =>
      if cover_letter ≠ "" then
        (some cover_letter,
         { rs.2 with sessionCache := (cache_key, cover_letter) :: rs.2.sessionCache })
      else (none, rs.2)
    | none => (none, rs.2)

/-- The state before any interaction: both caches empty, no API calls made. -/
def initialState : AppState :=
  { sessionCache := [], dataCache := [], apiCalls := 0 }

/-- The always-failing external generator: every chat-completion call raises
(caught by the `except` arms, which return `None`). -/
def genFailOracle : Nat → Option String := fun _ => none

/-- The always-succeeding external generator, returning a fixed letter. -/
def genOkOracle : Nat → Option String := fun _ => some "LETTER"

/-- A tokenizer oracle counting every text as zero tokens (all budget checks
pass). -/
def tokZero : String → Nat := fun _ => 0

/-! Helper lemmas. -/

theorem isPrefixOf_append_drop :
    ∀ p t : List Char, p.isPrefixOf t = true → p ++ t.drop p.length = t := by
  intro p
  induction p with
  | nil => intro t _; simp
  | cons a p ih =>
    intro t hp
    cases t with
    | nil => simp [List.isPrefixOf] at hp
    | cons b t2 =>
      simp only [List.isPrefixOf, Bool.and_eq_true, beq_iff_eq] at hp
      obtain ⟨rfl, h2⟩ := hp
      simp [ih t2 h2]

theorem replaceAllF_self (pat : List Char) :
    ∀ n t, t.length ≤ n → replaceAllF pat pat n t = t := by
  intro n
  induction n with
  | zero =>
    intro t ht
    cases t with
    | nil => rfl
    | cons c r => simp at ht
  | succ n ih =>
    intro t ht
    cases t with
    | nil => rfl
    | cons c rest =>
      rw [replaceAllF]
      by_cases hc : (pat.isPrefixOf (c :: rest) && !pat.isEmpty) = true
      · rw [if_pos hc]
        have hp : pat.isPrefixOf (c :: rest) = true := by
          have hcc := hc
          simp only [Bool.and_eq_true] at hcc
          exact hcc.1
        have hne : pat.isEmpty = false := by
          have hcc := hc
          simp only [Bool.and_eq_true, Bool.not_eq_true'] at hcc
          exact hcc.2
        have hlen : 1 ≤ pat.length := by
          cases pat with
          | nil => simp at hne
          | cons _ _ => simp
        have hdrop : ((c :: rest).drop pat.length).length ≤ n := by
          simp only [List.length_drop, List.length_cons]
          simp only [List.length_cons] at ht
          omega
        rw [ih _ hdrop]
        exact isPrefixOf_append_drop pat (c :: rest) hp
      · rw [if_neg hc]
        have hrest : rest.length ≤ n := by
          simp only [List.length_cons] at ht
          omega
        rw [ih rest hrest]

/-- A single `re.sub` pass never re-reads the text it has just inserted:
replacing the pattern by itself is the identity. -/
theorem replaceAll_self (pat t : List Char) : replaceAll pat pat t = t :=
  replaceAllF_self pat t.length t le_rfl

theorem pyExpandTemplate_cons_of_ne (m : List Char) (c : Char) (rest : List Char)
    (hc : c ≠ '\\') :
    pyExpandTemplate m (c :: rest) = (pyExpandTemplate m rest).map (fun l => c :: l) := by
  rw [pyExpandTemplate.eq_def]
  simp [hc]

/-- Template expansion is the identity on backslash-free replacement
strings. -/
theorem pyExpandTemplate_no_backslash (m : List Char) :
    ∀ l : List Char, (∀ c ∈ l, c ≠ '\\') → pyExpandTemplate m l = some l := by
  intro l
  induction l with
  | nil => intro _; rfl
  | cons c rest ih =>
    intro h
    have hc : c ≠ '\\' := h c (List.mem_cons_self c rest)
    rw [pyExpandTemplate_cons_of_ne m c rest hc,
      ih (fun x hx => h x (List.mem_cons_of_mem c hx))]
    rfl

theorem data_bracketed (L : String) : ("[" ++ L ++ "]").data = bracketed L := by
  have h1 : ("[" : String).data = ['['] := rfl
  have h2 : ("]" : String).data = [']'] := rfl
  simp [bracketed, String.data_append, h1, h2]

theorem replace_placeholders_singleton (t L v : String) :
    replace_placeholders t [(L, v)]
      = (pyExpandTemplate (bracketed L) v.data).map
          (fun rep => String.mk (replaceAll (bracketed L) rep t.data)) := by
  unfold replace_placeholders
  cases h : pyExpandTemplate (bracketed L) v.data with
  | none => simp [List.foldlM, h]
  | some rep => simp [List.foldlM, h]

theorem takeWhile_append_eq (p : Char → Bool) :
    ∀ l1 l2 : List Char, (l1 ++ l2).takeWhile p
      = if l1.takeWhile p = l1 then l1 ++ l2.takeWhile p else l1.takeWhile p := by
  intro l1
  induction l1 with
  | nil => intro l2; simp
  | cons a t ih =>
    intro l2
    by_cases ha : p a = true
    · by_cases h : t.takeWhile p = t
      · simp [List.takeWhile_cons, ha, ih, h]
      · simp [List.takeWhile_cons, ha, ih, h]
    · have ha2 : p a = false := by simpa using ha
      simp [List.takeWhile_cons, ha2]

theorem afterLastSep_cons_sep (sep : Char) (rest : List Char) :
    afterLastSep sep (sep :: rest) = afterLastSep sep rest := by
  unfold afterLastSep
  rw [List.reverse_cons, takeWhile_append_eq]
  have hsep : ((sep != sep) : Bool) = false := by simp
  split_ifs with h
  · simp [List.takeWhile_cons, hsep, h]
  · rfl

theorem afterLastSep_of_not_mem (sep : Char) (m : List Char) (h : sep ∉ m) :
    afterLastSep sep m = m := by
  unfold afterLastSep
  rw [List.takeWhile_eq_self_iff.mpr, List.reverse_reverse]
  intro x hx
  have hxm : x ∈ m := List.mem_reverse.mp hx
  simp only [bne_iff_ne, ne_eq]
  exact fun he => h (he ▸ hxm)

theorem afterLastSep_cons_of_mem (sep c : Char) (rest : List Char) (h : sep ∈ rest) :
    afterLastSep sep (c :: rest) = afterLastSep sep rest := by
  unfold afterLastSep
  rw [List.reverse_cons, takeWhile_append_eq]
  have hcond : ¬(rest.reverse.takeWhile (fun x => x != sep) = rest.reverse) := by
    intro hc
    have := List.takeWhile_eq_self_iff.mp hc sep (List.mem_reverse.mpr h)
    simp at this
  rw [if_neg hcond]

theorem pySplit_cons (sep c : Char) (rest : List Char) :
    pySplit sep (c :: rest) = if c = sep then [] :: pySplit sep rest
      else match pySplit sep rest with
        | [] => [[c]]
        | s :: ss => (c :: s) :: ss := rfl

theorem pySplit_ne_nil (sep : Char) : ∀ l : List Char, pySplit sep l ≠ [] := by
  intro l
  cases l with
  | nil => simp [pySplit]
  | cons c rest =>
    rw [pySplit_cons]
    by_cases hc : c = sep
    · simp [hc]
    · rw [if_neg hc]
      cases pySplit sep rest with
      | nil => simp
      | cons s ss => simp

theorem pySplit_of_not_mem (sep : Char) :
    ∀ l : List Char, sep ∉ l → pySplit sep l = [l] := by
  intro l
  induction l with
  | nil => intro _; rfl
  | cons c rest ih =>
    intro h
    have hc : c ≠ sep := fun he => h (he ▸ List.mem_cons_self c rest)
    have hrest : sep ∉ rest := fun hm => h (List.mem_cons_of_mem c hm)
    rw [pySplit_cons, if_neg hc, ih hrest]

theorem two_le_pySplit_of_mem (sep : Char) :
    ∀ l : List Char, sep ∈ l → 2 ≤ (pySplit sep l).length := by
  intro l
  induction l with
  | nil => intro h; exact absurd h (List.not_mem_nil sep)
  | cons c rest ih =>
    intro h
    rw [pySplit_cons]
    by_cases hc : c = sep
    · rw [if_pos hc]
      have : 0 < (pySplit sep rest).length :=
        List.length_pos.mpr (pySplit_ne_nil sep rest)
      simp only [List.length_cons]
      omega
    · rw [if_neg hc]
      have hm : sep ∈ rest := by
        rcases List.mem_cons.mp h with he | hm
        · exact absurd he.symm hc
        · exact hm
      have h2 := ih hm
      cases hr : pySplit sep rest with
      | nil => exact absurd hr (pySplit_ne_nil sep rest)
      | cons s ss =>
        rw [hr] at h2
        simpa using h2

theorem pySplit_getLastD (sep : Char) :
    ∀ l : List Char, (pySplit sep l).getLastD [] = afterLastSep sep l := by
  intro l
  induction l with
  | nil => rfl
  | cons c rest ih =>
    rw [pySplit_cons]
    by_cases hc : c = sep
    · subst hc
      rw [if_pos rfl, List.getLastD_cons, ih, afterLastSep_cons_sep]
    · rw [if_neg hc]
      cases hr : pySplit sep rest with
      | nil => exact absurd hr (pySplit_ne_nil sep rest)
      | cons s ss =>
        cases ss with
        | nil =>
          have hnm : sep ∉ rest := by
            intro hm
            have h2 := two_le_pySplit_of_mem sep rest hm
            rw [hr] at h2
            simp at h2
          have hs : s = rest := by
            have heq := pySplit_of_not_mem sep rest hnm
            rw [hr] at heq
            exact (List.cons.injEq s [] rest []).mp heq |>.1
          subst hs
          rw [afterLastSep_of_not_mem sep (c :: s)
            (fun hm => by
              rcases List.mem_cons.mp hm with he | hm2
              · exact hc he.symm
              · exact hnm hm2)]
          rfl
        | cons s2 ss2 =>
          have hm : sep ∈ rest := by
            by_contra hnm
            have heq := pySplit_of_not_mem sep rest hnm
            rw [hr] at heq
            simp at heq
          rw [afterLastSep_cons_of_mem sep c rest hm, ← ih, hr]
          simp [List.getLastD_cons]

/-- Splitting on a separator character absent from both left parts is
injective. -/
theorem append_sep_inj {sep : Char} :
    ∀ (l1 l2 r1 r2 : List Char), sep ∉ l1 → sep ∉ l2 →
      l1 ++ sep :: r1 = l2 ++ sep :: r2 → l1 = l2 ∧ r1 = r2 := by
  intro l1
  induction l1 with
  | nil =>
    intro l2 r1 r2 _ h2 heq
    cases l2 with
    | nil => simpa using heq
    | cons b t =>
      exfalso
      have hh : sep = b := by
        have := congrArg (fun l => l.headD sep) heq
        simpa using this
      exact h2 (hh ▸ List.mem_cons_self b t)
  | cons a t ih =>
    intro l2 r1 r2 h1 h2 heq
    cases l2 with
    | nil =>
      exfalso
      have hh : a = sep := by
        have := congrArg (fun l => l.headD sep) heq
        simpa using this
      exact h1 (hh ▸ List.mem_cons_self a t)
    | cons b t2 =>
      have hh : a = b := by
        have := congrArg (fun l => l.headD sep) heq
        simpa using this
      have ht : t ++ sep :: r1 = t2 ++ sep :: r2 := by
        have := congrArg List.tail heq
        simpa using this
      have hrec := ih t2 r1 r2 (fun hm => h1 (List.mem_cons_of_mem a hm))
        (fun hm => h2 (List.mem_cons_of_mem b hm)) ht
      exact ⟨by rw [hh, hrec.1], hrec.2⟩

/-- A left fold of per-character maps is the map of the folded
per-character function. -/
theorem foldl_map_eq_map (g : Char → Char → Char) :
    ∀ (cs : List Char) (l : List Char),
      cs.foldl (fun acc c => acc.map (g c)) l
        = l.map (fun x => cs.foldl (fun y c => g c y) x) := by
  intro cs
  induction cs with
  | nil => intro l; simp
  | cons c cs ih =>
    intro l
    simp only [List.foldl_cons, ih, List.map_map]
    rfl

/-- Folding the unsafe-character replacements over one character yields an
underscore exactly on the unsafe characters. -/
theorem unsafe_fold_char (x : Char) :
    UNSAFE_CHARS.foldl (fun y c => if y = c then '_' else y) x
      = if UNSAFE_CHARS.contains x then '_' else x := by
  by_cases hx : x ∈ UNSAFE_CHARS
  · have hcx : UNSAFE_CHARS.contains x = true := List.elem_eq_true_of_mem hx
    rw [if_pos hcx]
    fin_cases hx <;> decide
  · have hcx : UNSAFE_CHARS.contains x = false := by
      simpa using hx
    have hnot : ¬(UNSAFE_CHARS.contains x = true) := by
      rw [hcx]
      exact Bool.false_ne_true
    rw [if_neg hnot]
    have hne : ∀ c ∈ UNSAFE_CHARS, x ≠ c := fun c hc he => hx (he ▸ hc)
    simp only [UNSAFE_CHARS, List.mem_cons, List.not_mem_nil] at hne
    simp only [UNSAFE_CHARS, List.foldl_cons, List.foldl_nil]
    rw [if_neg (hne '<' (by simp)), if_neg (hne '>' (by simp)),
      if_neg (hne ':' (by simp)), if_neg (hne '"' (by simp)),
      if_neg (hne '/' (by simp)), if_neg (hne '\\' (by simp)),
      if_neg (hne '|' (by simp)), if_neg (hne '?' (by simp)),
      if_neg (hne '*' (by simp))]

/-! Claims. -/

/-- C6: `determine_input_type` lower-cases the label and tests substring
membership against the ordered keyword groups email, phone, address, date,
name, first match winning with the fixed table order as tie-break, and falls
through to the generic category when no keyword matches — the code's string
representation of which is the literal `"text"` (its default value is then
resolved through the `'generic'` entry of `PLACEHOLDER_DEFAULTS`).  In
particular `classify("Your Email") = email`, `classify("Start Date") = date`
and `classify("Foo") = generic`. -/
theorem determine_input_type_refines_spec :
    (∀ label : String, determine_input_type label = categoryToCode (specClassify label)) ∧
    determine_input_type "Your Email" = "email" ∧
    specClassify "Your Email" = SpecCategory.email ∧
    determine_input_type "Start Date" = "date" ∧
    specClassify "Start Date" = SpecCategory.date ∧
    determine_input_type "Foo" = "text" ∧
    specClassify "Foo" = SpecCategory.generic := by
  refine ⟨fun label => ?_, by decide, by decide, by decide, by decide, by decide, by decide⟩
  unfold determine_input_type specClassify
  simp only [INPUT_TYPE_KEYWORDS, firstMatching, List.any_cons, List.any_nil, Bool.or_false]
  split_ifs <;> rfl

/-- C10: `sanitize_filename` keeps the length of the filename, its result
contains none of the characters `< > : " / \ | ? *`, and it is exactly the
character-wise map sending each unsafe character to an underscore and fixing
every other character. -/
theorem sanitize_filename_underscores (filename : String) :
    (sanitize_filename filename).length = filename.length ∧
    (∀ c ∈ (sanitize_filename filename).data, UNSAFE_CHARS.contains c = false) ∧
    (sanitize_filename filename).data
      = filename.data.map (fun c => if UNSAFE_CHARS.contains c then '_' else c) := by
  have hmap : (sanitize_filename filename).data
      = filename.data.map (fun c => if UNSAFE_CHARS.contains c then '_' else c) := by
    show UNSAFE_CHARS.foldl (fun l c => replaceChar c '_' l) filename.data = _
    have hstep : (fun (l : List Char) (c : Char) => replaceChar c '_' l)
        = fun l c => l.map (fun y => if y = c then '_' else y) := rfl
    rw [hstep, foldl_map_eq_map (fun c y => if y = c then '_' else y)]
    exact List.map_congr_left (fun x _ => unsafe_fold_char x)
  refine ⟨?_, ?_, hmap⟩
  · show (sanitize_filename filename).data.length = filename.data.length
    rw [hmap, List.length_map]
  · intro c hc
    rw [hmap] at hc
    obtain ⟨x, _, rfl⟩ := List.mem_map.mp hc
    by_cases hx : UNSAFE_CHARS.contains x = true
    · rw [if_pos hx]
      decide
    · rw [if_neg hx]
      simpa using hx

/-- C10 witness: the sanitization theorem applied at the concrete filename
`"a<b"`, its membership hypothesis discharged at the character `'a'`. -/
theorem sanitize_filename_underscores_w :
    (sanitize_filename "a<b").length = ("a<b" : String).length ∧
    UNSAFE_CHARS.contains 'a' = false :=
  ⟨(sanitize_filename_underscores "a<b").1,
   (sanitize_filename_underscores "a<b").2.1 'a' (by decide)⟩

/-- C1 counterexample: with the map `{A: "[B]", B: "x"}` (in that iteration
order) the value `"[B]"` inserted for `[A]` — a bracketed label in the map's
domain — IS re-scanned and substituted by the later entry, yielding `"x"`
instead of the claimed untouched `"[B]"`. -/
theorem replace_placeholders_rescans_later_entries :
    replace_placeholders "[A]" [("A", "[B]"), ("B", "x")] = some "x" ∧
    replace_placeholders "[A]" [("A", "[B]"), ("B", "x")] ≠ some "[B]" := by
  constructor
  · decide
  · decide

/-- C1 amended: each single map entry is substituted in one exact-literal
pass that never re-scans its own insertions — replacing `[L]` by the value
`"[L]"` (which contains a bracketed label of the map's domain) leaves every
text unchanged, for any backslash-free label — and regex metacharacters in a
value are inserted verbatim; re-scanning happens only across entries (a value
containing a bracketed label of a *later* entry is substituted again, as the
counterexample shows), and backslash sequences in values are interpreted as
`re.sub` template escapes rather than copied verbatim. -/
theorem replace_placeholders_single_entry_literal :
    (∀ (t L : String), (∀ c ∈ L.data, c ≠ '\\') →
      replace_placeholders t [(L, "[" ++ L ++ "]")] = some t) ∧
    replace_placeholders "a[L]b" [("L", "$1.*+")] = some "a$1.*+b" := by
  constructor
  · intro t L hL
    have hval : ∀ c ∈ ("[" ++ L ++ "]").data, c ≠ '\\' := by
      rw [data_bracketed]
      intro c hc
      rcases List.mem_cons.mp hc with rfl | hc2
      · decide
      · rcases List.mem_append.mp hc2 with hc3 | hc4
        · exact hL c hc3
        · rcases List.mem_singleton.mp hc4 with rfl
          decide
    have hval2 : ∀ c ∈ bracketed L, c ≠ '\\' := data_bracketed L ▸ hval
    rw [replace_placeholders_singleton, data_bracketed,
      pyExpandTemplate_no_backslash (bracketed L) (bracketed L) hval2]
    show some (String.mk (replaceAll (bracketed L) (bracketed L) t.data)) = some t
    rw [replaceAll_self]
  · decide

/-- C1 witness: the single-entry no-re-scan theorem applied at the concrete
text `"x[N]y"` and label `N` with value `"[N]"`. -/
theorem replace_placeholders_single_entry_literal_w :
    replace_placeholders "x[N]y" [("N", "[" ++ "N" ++ "]")] = some "x[N]y" :=
  replace_placeholders_single_entry_literal.1 "x[N]y" "N" (by decide)

/-- C4 counterexample: with the map `{A: "x[A]y"}` the substituted result
still contains the bracketed placeholder `[A]` whose label is in the map's
domain. -/
theorem replace_placeholders_value_reintroduces_label :
    replace_placeholders "[A]" [("A", "x[A]y")] = some "x[A]y" ∧
    isSubstr "[A]".data "x[A]y".data = true := by
  constructor
  · decide
  · decide

/-- C4 amended: the claimed round trip does hold on the spec's own instance —
`substitute("Hello [Name]!", {"Name": "Jane Doe"})` is `"Hello Jane Doe!"`,
which contains no occurrence of `"[Name]"`; the universal "no remaining
bracketed placeholder from the map's domain" fails only when a substituted
value itself reintroduces such a placeholder (see the counterexample). -/
theorem replace_placeholders_round_trip :
    replace_placeholders "Hello [Name]!" [("Name", "Jane Doe")] = some "Hello Jane Doe!" ∧
    isSubstr "[Name]".data "Hello Jane Doe!".data = false := by
  constructor
  · decide
  · decide

/-- C2 counterexample: the inputs `a = "x|x"` and `b = "x"` are distinct,
yet `calculate_content_hash a b = calculate_content_hash b a`, because both
pairs produce the same joined content `"x|x|x"` — the `'|'` separator also
occurs inside the input. -/
theorem calculate_content_hash_swap_collision :
    calculate_content_hash "x|x" "x" = calculate_content_hash "x" "x|x" ∧
    ("x|x" : String) ≠ "x" := by
  constructor
  · unfold calculate_content_hash
    rw [show hashContent "x|x" "x" = hashContent "x" "x|x" from by decide]
  · decide

/-- C2 amended: the fingerprint is deterministic and depends only on the
joined string `resume + "|" + job_description`; for inputs that do not
contain the `'|'` separator, distinct pairs always produce distinct joined
content (so the `("ab","c")`-versus-`("a","bc")` ambiguity cannot occur and
swap-collisions need an MD5 collision, which is not ruled out here); pairs
containing `'|'` can collide exactly, as the counterexample shows. -/
theorem calculate_content_hash_content :
    (∀ a b c d : String, hashContent a b = hashContent c d →
      calculate_content_hash a b = calculate_content_hash c d) ∧
    (∀ a b c d : String, '|' ∉ a.data → '|' ∉ c.data →
      hashContent a b = hashContent c d → a = c ∧ b = d) := by
  constructor
  · intro a b c d h
    unfold calculate_content_hash
    rw [h]
  · intro a b c d ha hc h
    have hd : a.data ++ '|' :: b.data = c.data ++ '|' :: d.data := by
      have h2 := congrArg String.data h
      have hbar : ("|" : String).data = ['|'] := rfl
      simpa [hashContent, String.data_append, hbar, List.append_assoc] using h2
    have hinj := append_sep_inj a.data c.data b.data d.data ha hc hd
    exact ⟨String.ext hinj.1, String.ext hinj.2⟩

/-- C2 witness: the amended theorem applied at the concrete pipe-free pair
`("r", "s")` against itself. -/
theorem calculate_content_hash_content_w :
    calculate_content_hash "r" "s" = calculate_content_hash "r" "s" ∧
    (("r" : String) = "r" ∧ ("s" : String) = "s") :=
  ⟨calculate_content_hash_content.1 "r" "s" "r" "s" rfl,
   calculate_content_hash_content.2 "r" "s" "r" "s" (by decide) (by decide) rfl⟩

/-- C5: `validate_token_limits` checks the resume count against its
ceiling, then the job-description count, then the combined count, and
returns the first violation found in that order (a later violation is
never reported when an earlier one holds), returning `(true, "")` when no
ceiling is exceeded. -/
theorem validate_token_limits_first_violation (tok : String → Nat)
    (resume_text job_description : String) :
    (RESUME_MAX_TOKENS < tok resume_text →
      validate_token_limits tok resume_text job_description
        = (false, "resume (" ++ toString (tok resume_text) ++ " tokens)")) ∧
    (tok resume_text ≤ RESUME_MAX_TOKENS → JOB_DESC_MAX_TOKENS < tok job_description →
      validate_token_limits tok resume_text job_description
        = (false, "job description (" ++ toString (tok job_description) ++ " tokens)")) ∧
    (tok resume_text ≤ RESUME_MAX_TOKENS → tok job_description ≤ JOB_DESC_MAX_TOKENS →
      TOTAL_SAFE_LIMIT < tok resume_text + tok job_description →
      validate_token_limits tok resume_text job_description
        = (false, "total content ("
            ++ toString (tok resume_text + tok job_description) ++ " tokens)")) ∧
    (tok resume_text ≤ RESUME_MAX_TOKENS → tok job_description ≤ JOB_DESC_MAX_TOKENS →
      tok resume_text + tok job_description ≤ TOTAL_SAFE_LIMIT →
      validate_token_limits tok resume_text job_description = (true, "")) := by
  refine ⟨fun h1 => ?_, fun h1 h2 => ?_, fun h1 h2 h3 => ?_, fun h1 h2 h3 => ?_⟩ <;>
    simp only [validate_token_limits]
  · rw [if_pos h1]
  · rw [if_neg (Nat.not_lt.mpr h1), if_pos h2]
  · rw [if_neg (Nat.not_lt.mpr h1), if_neg (Nat.not_lt.mpr h2), if_pos h3]
  · rw [if_neg (Nat.not_lt.mpr h1), if_neg (Nat.not_lt.mpr h2), if_neg (Nat.not_lt.mpr h3)]

/-- C5 witness: a 9000-token resume with a 1000-token job description under
the configured 8000-token resume ceiling reports the resume as the (only)
violation. -/
theorem validate_token_limits_first_violation_w :
    validate_token_limits (fun s => if s = "R" then 9000 else 1000) "R" "J"
      = (false, "resume (9000 tokens)") :=
  ((validate_token_limits_first_violation
      (fun s => if s = "R" then 9000 else 1000) "R" "J").1 (by decide)).trans (by decide)

/-- C7: `truncate_text_to_tokens` returns a token count equal to
`min(originalTokenCount, maxTokens)` — in particular always `≤ maxTokens` —
and a text equal to the decoding of the maximal token-list prefix within the
budget, which is a string prefix of the input (the hypotheses state the
tokenizer contract — decoding splits over the take/drop split and decoding
inverts encoding — at the instance used). -/
theorem truncate_text_to_tokens_spec (encode : String → List Nat)
    (decode : List Nat → String) (text : String) (max_tokens : Nat)
    (hsplit : decode ((encode text).take max_tokens)
        ++ decode ((encode text).drop max_tokens) = text)
    (hrt : decode (encode text) = text) :
    (truncate_text_to_tokens encode decode text max_tokens).2
        = min (encode text).length max_tokens ∧
    (truncate_text_to_tokens encode decode text max_tokens).2 ≤ max_tokens ∧
    (truncate_text_to_tokens encode decode text max_tokens).1
        = decode ((encode text).take max_tokens) ∧
    (∃ rest : String,
      (truncate_text_to_tokens encode decode text max_tokens).1 ++ rest = text) := by
  have happend : ∀ s : String, s ++ "" = s := fun s =>
    String.ext (by simp [String.data_append])
  simp only [truncate_text_to_tokens]
  by_cases h : (encode text).length ≤ max_tokens
  · rw [if_pos h]
    refine ⟨(Nat.min_eq_left h).symm, h, ?_, ⟨"", happend text⟩⟩
    rw [List.take_of_length_le h, hrt]
  · rw [if_neg h]
    exact ⟨(Nat.min_eq_right (Nat.le_of_not_le h)).symm, le_rfl, rfl,
      ⟨decode ((encode text).drop max_tokens), hsplit⟩⟩

/-- C7 witness: the truncation contract applied to a concrete
character-code tokenizer on `"ab"` with a budget of one token. -/
theorem truncate_text_to_tokens_spec_w :
    (truncate_text_to_tokens (fun s => s.data.map Char.toNat)
        (fun l => String.mk (l.map Char.ofNat)) "ab" 1).2
      = min ((fun s : String => s.data.map Char.toNat) "ab").length 1 ∧
    (truncate_text_to_tokens (fun s => s.data.map Char.toNat)
        (fun l => String.mk (l.map Char.ofNat)) "ab" 1).2 ≤ 1 ∧
    (truncate_text_to_tokens (fun s => s.data.map Char.toNat)
        (fun l => String.mk (l.map Char.ofNat)) "ab" 1).1
      = (fun l : List Nat => String.mk (l.map Char.ofNat))
          (((fun s : String => s.data.map Char.toNat) "ab").take 1) ∧
    (∃ rest : String,
      (truncate_text_to_tokens (fun s => s.data.map Char.toNat)
        (fun l => String.mk (l.map Char.ofNat)) "ab" 1).1 ++ rest = "ab") :=
  truncate_text_to_tokens_spec (fun s => s.data.map Char.toNat)
    (fun l => String.mk (l.map Char.ofNat)) "ab" 1 (by decide) (by decide)

/-- C8: `count_tokens` is a total function whose result is always a
non-negative integer, and on tokenizer failure (the `try` block raising,
modelled by the oracle returning `none`) it returns `0` instead of
propagating the error. -/
theorem count_tokens_total (tokenize : String → Option (List Nat)) (text : String) :
    0 ≤ count_tokens tokenize text ∧
    (tokenize text = none → count_tokens tokenize text = 0) := by
  unfold count_tokens
  cases h : tokenize text with
  | none => exact ⟨le_refl 0, fun _ => rfl⟩
  | some toks => exact ⟨Int.natCast_nonneg toks.length, fun hc => by simp at hc⟩

/-- C8 witness: the degradation contract at a concretely failing
tokenizer. -/
theorem count_tokens_total_w :
    0 ≤ count_tokens (fun _ => none) "t" ∧ count_tokens (fun _ => none) "t" = 0 :=
  ⟨(count_tokens_total (fun _ => none) "t").1,
   (count_tokens_total (fun _ => none) "t").2 rfl⟩

/-- C9: `validate_file_type` accepts exactly the non-empty filenames whose
segment after the last dot (the whole name when no dot occurs), lower-cased,
is `"pdf"`; in particular the dotless name `"pdf"` passes, `"resume.PDF"`
passes case-insensitively, and the empty name is rejected. -/
theorem validate_file_type_iff (filename : String) :
    (validate_file_type filename = true ↔
      (filename ≠ "" ∧
        String.mk ((afterLastSep '.' filename.data).map Char.toLower) = "pdf")) ∧
    validate_file_type "pdf" = true ∧
    validate_file_type "resume.PDF" = true ∧
    validate_file_type "" = false := by
  refine ⟨?_, by decide, by decide, by decide⟩
  unfold validate_file_type
  by_cases hf : filename = ""
  · simp [hf]
  · rw [if_neg hf, ← pySplit_getLastD '.']
    simp [SUPPORTED_FILE_TYPES, hf]

/-- C3 (code behaviour at the failing input): starting from empty caches with
the API key present and all token checks passing, when the external
generation call fails, the first `get_cached_cover_letter` call returns
`None` after one API invocation — and the *second* call with identical
inputs returns `None` again **without invoking the external call** (the API
counter stays at 1), because `@st.cache_data` memoized the `None`; the claim
instead requires the failure to be retried.  By contrast, when the first
call succeeds, the second identical call replays the letter from the
session cache with the external call again invoked exactly once in total,
as claimed. -/
theorem failed_generation_replayed_from_cache (resume_text job_description : String) :
    ((get_cached_cover_letter true tokZero genFailOracle resume_text job_description
        initialState).1 = none ∧
     (get_cached_cover_letter true tokZero genFailOracle resume_text job_description
        initialState).2.apiCalls = 1 ∧
     (get_cached_cover_letter true tokZero genFailOracle resume_text job_description
        (get_cached_cover_letter true tokZero genFailOracle resume_text job_description
          initialState).2).1 = none ∧
     (get_cached_cover_letter true tokZero genFailOracle resume_text job_description
        (get_cached_cover_letter true tokZero genFailOracle resume_text job_description
          initialState).2).2.apiCalls = 1) ∧
    ((get_cached_cover_letter true tokZero genOkOracle resume_text job_description
        initialState).1 = some "LETTER" ∧
     (get_cached_cover_letter true tokZero genOkOracle resume_text job_description
        initialState).2.apiCalls = 1 ∧
     (get_cached_cover_letter true tokZero genOkOracle resume_text job_description
        (get_cached_cover_letter true tokZero genOkOracle resume_text job_description
          initialState).2).1 = some "LETTER" ∧
     (get_cached_cover_letter true tokZero genOkOracle resume_text job_description
        (get_cached_cover_letter true tokZero genOkOracle resume_text job_description
          initialState).2).2.apiCalls = 1) := by
  have hval : validate_token_limits tokZero resume_text job_description = (true, "") := by
    simp [validate_token_limits, tokZero, RESUME_MAX_TOKENS, JOB_DESC_MAX_TOKENS,
      TOTAL_SAFE_LIMIT]
  have hgf : ∀ h : String,
      generate_cover_letter_with_cache true tokZero genFailOracle
        resume_text job_description h
        { sessionCache := [], dataCache := [], apiCalls := 0 }
      = (none,
         { sessionCache := [],
           dataCache := [((resume_text, job_description, h), none)],
           apiCalls := 1 }) := by
    intro h
    simp [generate_cover_letter_with_cache, lookup, hval, genFailOracle]
  have hc1 : get_cached_cover_letter true tokZero genFailOracle
      resume_text job_description initialState
      = (none,
         { sessionCache := [],
           dataCache := [((resume_text, job_description,
             calculate_content_hash resume_text job_description), none)],
           apiCalls := 1 }) := by
    simp [get_cached_cover_letter, initialState, lookup, hgf]
  have hgf2 : generate_cover_letter_with_cache true tokZero genFailOracle
      resume_text job_description (calculate_content_hash resume_text job_description)
      { sessionCache := [],
        dataCache := [((resume_text, job_description,
          calculate_content_hash resume_text job_description), none)],
        apiCalls := 1 }
      = (none,
         { sessionCache := [],
           dataCache := [((resume_text, job_description,
             calculate_content_hash resume_text job_description), none)],
           apiCalls := 1 }) := by
    simp [generate_cover_letter_with_cache, lookup]
  have hc2 : get_cached_cover_letter true tokZero genFailOracle
      resume_text job_description
      { sessionCache := [],
        dataCache := [((resume_text, job_description,
          calculate_content_hash resume_text job_description), none)],
        apiCalls := 1 }
      = (none,
         { sessionCache := [],
           dataCache := [((resume_text, job_description,
             calculate_content_hash resume_text job_description), none)],
           apiCalls := 1 }) := by
    simp [get_cached_cover_letter, lookup, hgf2]
  have hstrip : pyStrip "LETTER" = "LETTER" := by decide
  have hgo : ∀ h : String,
      generate_cover_letter_with_cache true tokZero genOkOracle
        resume_text job_description h
        { sessionCache := [], dataCache := [], apiCalls := 0 }
      = (some "LETTER",
         { sessionCache := [],
           dataCache := [((resume_text, job_description, h), some "LETTER")],
           apiCalls := 1 }) := by
    intro h
    simp [generate_cover_letter_with_cache, lookup, hval, genOkOracle, hstrip]
  have hs1 : get_cached_cover_letter true tokZero genOkOracle
      resume_text job_description initialState
      = (some "LETTER",
         { sessionCache := [("cover_letter_"
             ++ calculate_content_hash resume_text job_description, "LETTER")],
           dataCache := [((resume_text, job_description,
             calculate_content_hash resume_text job_description), some "LETTER")],
           apiCalls := 1 }) := by
    simp [get_cached_cover_letter, initialState, lookup, hgo]
  have hs2 : get_cached_cover_letter true tokZero genOkOracle
      resume_text job_description
      { sessionCache := [("cover_letter_"
          ++ calculate_content_hash resume_text job_description, "LETTER")],
        dataCache := [((resume_text, job_description,
          calculate_content_hash resume_text job_description), some "LETTER")],
        apiCalls := 1 }
      = (some "LETTER",
         { sessionCache := [("cover_letter_"
             ++ calculate_content_hash resume_text job_description, "LETTER")],
           dataCache := [((resume_text, job_description,
             calculate_content_hash resume_text job_description), some "LETTER")],
           apiCalls := 1 }) := by
    simp [get_cached_cover_letter, lookup]
  rw [hc1]
  rw [hc2]
  rw [hs1]
  rw [hs2]
  exact ⟨⟨rfl, rfl, rfl, rfl⟩, ⟨rfl, rfl, rfl, rfl⟩⟩

end CoverCraft
